import Mathlib

/-!
Shallow embedding of `gustaf/helpers/data.py` and `gustaf/utils/arr.py`
(repository Marker04/gustaf-mfem), together with theorems settling the
frozen claims about the dependency-tracked computed-data cache, the
mutation-tracked array type and `unique_rows`.

Python dictionaries are modelled as association lists over `String` keys
(first matching entry wins, `dictSet` updates in place or appends, matching
CPython dict semantics for the operations the code uses).  A Python value
that may be `None` is modelled as `Option V` with `none` for `None`.
-/

set_option autoImplicit false

namespace Gustaf

/-- Python `d.get(key)` / `d[key]` lookup on a dict modelled as an
association list: the first entry with the given key, if any. -/
def dictGet {α : Type} : List (String × α) → String → Option α
  | [], _ => none
  | (k, v) :: rest, key => if k = key then some v else dictGet rest key

/-- Python `d[key] = val` on a dict modelled as an association list:
replaces the first entry with the given key, or appends a new entry. -/
def dictSet {α : Type} : List (String × α) → String → α → List (String × α)
  | [], key, val => [(key, val)]
  | (k, v) :: rest, key, val =>
      if k = key then (key, val) :: rest else (k, v) :: dictSet rest key val

/-- Python `d.keys()`. -/
def dictKeys {α : Type} (d : List (String × α)) : List String := d.map Prod.fst

/-! ## TrackedArray (`gustaf/helpers/data.py`, lines 13-139)

A `TrackedArray` instance is a numpy array plus two slots `_modified` and
`_source`; `_source` is either the `int` sentinel `0` (modelled `none`) or
the root tracked array this one is a view of (modelled `some`).  The numpy
buffer itself is kept abstract as a type parameter `α` (instantiated with
`List Int` where concrete storage matters); a numpy array additionally
carries the `WRITEABLE` flag consulted by every in-place write. -/

/-- Errors raised by numpy-level operations: writing into a read-only
array (the spec's `WriteProtectionError`) and coercing ragged input
(the spec's `ShapeError`). -/
inductive NpError
  | WriteProtectionError
  | ShapeError
deriving DecidableEq

/-- A numpy ndarray carrying the TrackedArray slots: buffer, `WRITEABLE`
flag, and the `_modified` slot. -/
structure TA (α : Type) where
  data : α
  writeable : Bool
  modified : Bool
deriving DecidableEq

/-- A TrackedArray together with its `_source` slot: `none` models the
`int(0)` sentinel of `__array_finalize__`, `some b` models a back
reference to the root array `b` (source chains are one hop by
construction of `__array_finalize__`). -/
structure Tracked (α : Type) where
  arr : TA α
  source : Option (TA α)
deriving DecidableEq

/-- Embeds the `mutable` property getter (data.py:40-42): reads the
underlying `WRITEABLE` flag. -/
def Tracked.mutable {α : Type} (t : Tracked α) : Bool := t.arr.writeable

/-- Embeds the `mutable` property setter (data.py:44-46): writes the
underlying `WRITEABLE` flag; the `_modified` and `_source` slots are
untouched. -/
def Tracked.set_mutable {α : Type} (t : Tracked α) (value : Bool) : Tracked α :=
  { t with arr := { t.arr with writeable := value } }

/-- Embeds `TrackedArray._set_modified` (data.py:48-52): sets the array's
own `_modified` flag and, when `_source` is a TrackedArray, the source's
`_modified` flag as well. -/
def Tracked.set_modified {α : Type} (t : Tracked α) : Tracked α :=
  { arr := { t.arr with modified := true },
    source := t.source.map (fun s => { s with modified := true }) }

/-- Embeds `super().__i*__(...)` / `super().__setitem__(...)`: the numpy
in-place primitive the dunders delegate to.  numpy refuses to write into
an array whose `WRITEABLE` flag is cleared (raising the write-protection
error) and otherwise updates the buffer in place, leaving the subclass
slots untouched.  The arithmetic itself is numpy library code, external to
the repository, so it is a parameter `superOp` on the buffer. -/
def Tracked.inplaceSuper {α : Type} (t : Tracked α) (superOp : α → α) :
    Tracked α × Except NpError Unit :=
  if t.arr.writeable then
    ({ t with arr := { t.arr with data := superOp t.arr.data } }, .ok ())
  else
    (t, .error .WriteProtectionError)

/-- Embeds `__iadd__` (data.py:67-69): `self._set_modified()` then the
super call. -/
def Tracked.iadd {α : Type} (super_iadd : α → α) (t : Tracked α) :
    Tracked α × Except NpError Unit :=
  t.set_modified.inplaceSuper super_iadd

/-- Embeds `__isub__` (data.py:71-73). -/
def Tracked.isub {α : Type} (super_isub : α → α) (t : Tracked α) :
    Tracked α × Except NpError Unit :=
  t.set_modified.inplaceSuper super_isub

/-- Embeds `__imul__` (data.py:75-77). -/
def Tracked.imul {α : Type} (super_imul : α → α) (t : Tracked α) :
    Tracked α × Except NpError Unit :=
  t.set_modified.inplaceSuper super_imul

/-- Embeds `__idiv__` (data.py:79-81). -/
def Tracked.idiv {α : Type} (super_idiv : α → α) (t : Tracked α) :
    Tracked α × Except NpError Unit :=
  t.set_modified.inplaceSuper super_idiv

/-- Embeds `__itruediv__` (data.py:83-85). -/
def Tracked.itruediv {α : Type} (super_itruediv : α → α) (t : Tracked α) :
    Tracked α × Except NpError Unit :=
  t.set_modified.inplaceSuper super_itruediv

/-- Embeds `__imatmul__` (data.py:87-89). -/
def Tracked.imatmul {α : Type} (super_imatmul : α → α) (t : Tracked α) :
    Tracked α × Except NpError Unit :=
  t.set_modified.inplaceSuper super_imatmul

/-- Embeds `__ipow__` (data.py:91-93). -/
def Tracked.ipow {α : Type} (super_ipow : α → α) (t : Tracked α) :
    Tracked α × Except NpError Unit :=
  t.set_modified.inplaceSuper super_ipow

/-- Embeds `__imod__` (data.py:95-97). -/
def Tracked.imod {α : Type} (super_imod : α → α) (t : Tracked α) :
    Tracked α × Except NpError Unit :=
  t.set_modified.inplaceSuper super_imod

/-- Embeds `__ifloordiv__` (data.py:99-101). -/
def Tracked.ifloordiv {α : Type} (super_ifloordiv : α → α) (t : Tracked α) :
    Tracked α × Except NpError Unit :=
  t.set_modified.inplaceSuper super_ifloordiv

/-- Embeds `__ilshift__` (data.py:103-105). -/
def Tracked.ilshift {α : Type} (super_ilshift : α → α) (t : Tracked α) :
    Tracked α × Except NpError Unit :=
  t.set_modified.inplaceSuper super_ilshift

/-- Embeds `__irshift__` (data.py:107-109). -/
def Tracked.irshift {α : Type} (super_irshift : α → α) (t : Tracked α) :
    Tracked α × Except NpError Unit :=
  t.set_modified.inplaceSuper super_irshift

/-- Embeds `__iand__` (data.py:111-113). -/
def Tracked.iand {α : Type} (super_iand : α → α) (t : Tracked α) :
    Tracked α × Except NpError Unit :=
  t.set_modified.inplaceSuper super_iand

/-- Embeds `__ixor__` (data.py:115-117). -/
def Tracked.ixor {α : Type} (super_ixor : α → α) (t : Tracked α) :
    Tracked α × Except NpError Unit :=
  t.set_modified.inplaceSuper super_ixor

/-- Embeds `__ior__` (data.py:119-121). -/
def Tracked.ior {α : Type} (super_ior : α → α) (t : Tracked α) :
    Tracked α × Except NpError Unit :=
  t.set_modified.inplaceSuper super_ior

/-- Embeds `__setitem__` (data.py:123-125) on a concrete `List Int`
buffer: `self._set_modified()` then `super().__setitem__`, whose numpy
semantics is the write-protect check followed by an element store. -/
def Tracked.setitem (t : Tracked (List Int)) (i : Nat) (v : Int) :
    Tracked (List Int) × Except NpError Unit :=
  t.set_modified.inplaceSuper (fun d => d.set i v)

/-- Embeds `__setslice__` (data.py:127-129) on a concrete `List Int`
buffer: `self._set_modified()` then the super slice assignment. -/
def Tracked.setslice (t : Tracked (List Int)) (lo : Nat) (vs : List Int) :
    Tracked (List Int) × Except NpError Unit :=
  t.set_modified.inplaceSuper
    (fun d => d.take lo ++ vs ++ d.drop (lo + vs.length))

/-- Embeds `__array_finalize__` (data.py:28-38) for an array derived from
the tracked array `obj`: the new array starts `_modified = True`, and its
`_source` is `obj` itself when `obj._source` is the `int` sentinel,
otherwise `obj._source` (so `_source` always resolves to the root). -/
def array_finalize {α : Type} (data : α) (writeable : Bool) (obj : Tracked α) :
    Tracked α :=
  { arr := { data := data, writeable := writeable, modified := true },
    source := some (obj.source.getD obj.arr) }

/-- Embeds `TrackedArray.view` (data.py:61-65): `super().view()` makes a
storage-sharing array finalized from `self` (inheriting the `WRITEABLE`
flag), then the `WRITEABLE` flag of the view is cleared. -/
def Tracked.view {α : Type} (t : Tracked α) : Tracked α :=
  let v := array_finalize t.arr.data t.arr.writeable t
  { v with arr := { v.arr with writeable := false } }

/-- Embeds what a read slice `t[lo:hi]` actually does at runtime.  The
class overrides only `__getslice__` (data.py:131-139), a Python-2-only
hook that Python 3 never invokes (the repository is Python 3 code: it
uses f-strings); slicing therefore dispatches to the inherited
`ndarray.__getitem__`, which returns a storage-sharing view inheriting
the base's `WRITEABLE` flag and finalized by `__array_finalize__`. -/
def Tracked.getitem_slice (t : Tracked (List Int)) (lo hi : Nat) :
    Tracked (List Int) :=
  array_finalize ((t.arr.data.drop lo).take (hi - lo)) t.arr.writeable t

/-- Embeds `__getslice__` as written (data.py:131-139), the dead
Python-2 hook: it would call `self._set_modified()`, take the slice via
`super().__getitem__` and clear the slice's `WRITEABLE` flag.  Returns
the mutated self together with the slice. -/
def Tracked.getslice (t : Tracked (List Int)) (lo hi : Nat) :
    Tracked (List Int) × Tracked (List Int) :=
  let t1 := t.set_modified
  let slices := array_finalize ((t1.arr.data.drop lo).take (hi - lo))
      t1.arr.writeable t1
  (t1, { slices with arr := { slices.arr with writeable := false } })

/-! ## make_tracked_array (data.py:142-177)

Input is modelled as an optional list of rows of integers (rich enough to
exhibit `None` input, empty input and ragged input).  The `dtype`
argument is the identity in this integer model. -/

/-- Rows form a rectangular buffer when they all share one length. -/
def isRectangular : List (List Int) → Bool
  | [] => true
  | r :: rest => rest.all (fun q => q.length = r.length)

/-- Embeds `np.ascontiguousarray` on nested-list input: succeeds on
rectangular input, raises on ragged input. -/
def ascontiguousarray (a : List (List Int)) :
    Except NpError (List (List Int)) :=
  if isRectangular a then .ok a else .error .ShapeError

/-- Result of `make_tracked_array`: either a `TrackedArray` or a plain
(untracked) `np.ndarray`. -/
inductive MakeResult
  | trackedArr (t : Tracked (List (List Int)))
  | plain (data : List (List Int))
deriving DecidableEq

/-- Embeds `make_tracked_array` (data.py:142-177): `None` becomes `[]`;
the input is made contiguous; only under `if copy:` is the buffer copied
and viewed as `TrackedArray` (where `ndarray.view` triggers
`__array_finalize__` with a plain-ndarray `obj`, giving
`_modified = True` and the `int` source sentinel); with `copy=False` the
plain contiguous array is returned unchanged. -/
def make_tracked_array (array : Option (List (List Int))) (copy : Bool) :
    Except NpError MakeResult :=
  match ascontiguousarray (array.getD []) with
  | .error e => .error e
  | .ok contig =>
      if copy then
        .ok (.trackedArr
          { arr := { data := contig, writeable := true, modified := true },
            source := none })
      else
        .ok (.plain contig)

/-! ## DataHolder (data.py:180-291) -/

/-- Errors surfaced by the key-value holder: rejected direct writes
(`NotImplementedError` in the code, the spec's `DirectWriteRejected`) and
missing keys (`KeyError` in the code, the spec's `KeyNotFoundError`). -/
inductive HolderError
  | DirectWriteRejected
  | KeyNotFoundError
deriving DecidableEq

/-- Embeds `DataHolder.__setitem__` (data.py:201-216): unconditionally
raises, for every holder state, key and value. -/
def DataHolder.setitem {α : Type} (_saved : List (String × α))
    (_key : String) (_value : α) : Except HolderError Unit :=
  .error .DirectWriteRejected

/-- Embeds `DataHolder.__getitem__` (data.py:218-233): returns the stored
object when the key is in `_saved`, raises otherwise.  A stored `None`
is returned, not treated as absent. -/
def DataHolder.getitem {α : Type} (saved : List (String × α))
    (key : String) : Except HolderError α :=
  match dictGet saved key with
  | some v => .ok v
  | none => .error .KeyNotFoundError

/-! ## ComputedData.depends_on / compute_or_return_saved (data.py:294-404)

A holder instance is modelled by the `_modified` flags of its tracked
attributes (all that `compute_or_return_saved` reads or writes of them)
together with its `_computed._saved` dict, whose stored values live in
`Option V` because the code stores `None` as an eviction sentinel.  The
class-level `_depends` / `_inv_depends` tables are a `RegState`. -/

/-- A holder instance: attribute name to that tracked attribute's
`_modified` flag, plus the `_computed._saved` dict. -/
structure Holder (V : Type) where
  attrs : List (String × Bool)
  saved : List (String × Option V)
deriving DecidableEq

/-- Reads `getattr(self, name)._modified`.  The claims only ever name
attributes present on the holder; an absent attribute defaults to an
unmodified read here. -/
def attrModified {V : Type} (h : Holder V) (name : String) : Bool :=
  (dictGet h.attrs name).getD false

/-- Models an in-place mutation of the named tracked attribute: per
`TrackedArray._set_modified`, its `_modified` flag becomes true. -/
def mutateAttr {V : Type} (h : Holder V) (name : String) : Holder V :=
  { h with attrs := dictSet h.attrs name true }

/-- The class-level dependency tables `_depends` and `_inv_depends`. -/
structure RegState where
  depends : List (String × List String)
  invDepends : List (String × List String)
deriving DecidableEq

/-- Embeds the registration bookkeeping of `depends_on` (data.py:337-355):
extends `_depends[funcName]` with `varNames` (creating the list on first
registration) and appends `funcName` to `_inv_depends[vn]` for each
`vn` in `varNames`. -/
def registerDependency (st : RegState) (funcName : String)
    (varNames : List String) : RegState :=
  { depends :=
      dictSet st.depends funcName
        ((dictGet st.depends funcName).getD [] ++ varNames),
    invDepends :=
      varNames.foldl
        (fun m vn => dictSet m vn ((dictGet m vn).getD [] ++ [funcName]))
        st.invDepends }

/-- Models `self._computed._saved.get(name, None)`: `None` both when the
key is absent and when the stored sentinel is `None`. -/
def savedGet {V : Type} (h : Holder V) (name : String) : Option V :=
  (dictGet h.saved name).getD none

/-- One iteration of the staleness sweep (data.py:373-378) for a single
dependee: when its `_modified` flag is set, store `None` under every
operation name in `_inv_depends[dependee]`. -/
def sweepOne {V : Type} (invDepends : List (String × List String))
    (h : Holder V) (dep : String) : Holder V :=
  if attrModified h dep then
    { h with saved :=
        (((dictGet invDepends dep).getD []).foldl
          (fun s inv => dictSet s inv none) h.saved) }
  else h

/-- The full staleness sweep of `compute_or_return_saved`
(data.py:373-378): iterate `sweepOne` over `_depends[name]`. -/
def sweepAll {V : Type} (reg : RegState) (name : String) (h : Holder V) :
    Holder V :=
  ((dictGet reg.depends name).getD []).foldl (sweepOne reg.invDepends) h

/-- Step 4's flag clearing (data.py:393-395): after computing, set
`dependee._modified = False` for every dependee of the operation. -/
def clearDependeeFlags {V : Type} (reg : RegState) (name : String)
    (h : Holder V) : Holder V :=
  { h with attrs :=
      (((dictGet reg.depends name).getD []).foldl
        (fun a d => dictSet a d false) h.attrs) }

/-- Outcome of one call to a wrapped operation: the holder state after
the call, the returned value and whether the underlying computation
`func` was invoked. -/
structure EvalResult (V : Type) where
  holder : Holder V
  result : Option V
  invoked : Bool
deriving DecidableEq

/-- The body of `compute_or_return_saved` after the `return_saved` fast
path (data.py:371-397): staleness sweep, second cached-value check, then
computation, store, and dependee-flag clearing.  Marking a stored numpy
result read-only (data.py:388-389) does not affect the modelled state. -/
def evalBody {V : Type} (reg : RegState) (name : String)
    (func : Holder V → Option V) (recompute : Bool) (self : Holder V) :
    EvalResult V :=
  let self1 := sweepAll reg name self
  let saved := savedGet self1 name
  if saved.isSome && !recompute then
    { holder := self1, result := saved, invoked := false }
  else
    let computed := func self1
    let self2 := { self1 with saved := dictSet self1.saved name computed }
    { holder := clearDependeeFlags reg name self2, result := computed,
      invoked := true }

/-- Embeds `compute_or_return_saved` (data.py:357-397).  `func` is the
wrapped computation; it may return `None` (`none`).  The `return_saved`
fast path (data.py:365-369) returns the saved value when it is not
`None` and `recompute` is unset; in every other case the call proceeds
with the body — the code has no error path for `return_saved` without a
cached value. -/
def compute_or_return_saved {V : Type} (reg : RegState) (name : String)
    (func : Holder V → Option V) (recompute return_saved : Bool)
    (self : Holder V) : EvalResult V :=
  if return_saved && (savedGet self name).isSome && !recompute then
    { holder := self, result := savedGet self name, invoked := false }
  else
    evalBody reg name func recompute self

/-! ## unique_rows (`gustaf/utils/arr.py`, lines 43-94)

`unique_rows` views each row of a rectangular 2D integer array as one
fixed-width byte string and calls `np.unique` on that view; for a fixed
dtype the byte view is injective on rows, so `np.unique` computes, over
the list of rows: the sorted distinct rows, the first-occurrence index of
each, the inverse map sending each input row to its position among the
distinct rows, and occurrence counts.  `unique_stuff[0] = in_arr[ids]`
then replaces the byte strings by the original rows.  Rows are modelled
directly as `List Int`; the model sorts by integer lexicographic order,
which coincides with the byte-string order on the nonnegative inputs at
issue and is immaterial to the round-trip property. -/

/-- One row of a 2D integer array. -/
abbrev Row := List Int

/-- Lexicographic comparison of equal-length rows (the order of the
fixed-width byte-string view used by `np.unique`). -/
def rowLe : Row → Row → Bool
  | [], _ => true
  | _ :: _, [] => false
  | a :: as, b :: bs => if a < b then true else if b < a then false else rowLe as bs

/-- Ordered insertion for the sorted-unique computation of `np.unique`. -/
def insertRow (r : Row) : List Row → List Row
  | [] => [r]
  | x :: xs => if rowLe r x then r :: x :: xs else x :: insertRow r xs

/-- Sorts rows by `rowLe`. -/
def sortRows (l : List Row) : List Row := l.foldr insertRow []

/-- The sorted distinct rows, as `np.unique` returns them. -/
def uniqueSorted (rows : List Row) : List Row := sortRows rows.dedup

/-- Index of the first occurrence of a row in a list of rows (0 when
absent), as `np.unique` reports occurrences. -/
def idxOfRow : List Row → Row → Nat
  | [], _ => 0
  | a :: tl, r => if a = r then 0 else idxOfRow tl r + 1

/-- First-occurrence indices (`np.unique(..., return_index=True)`). -/
def uniqueIds (rows : List Row) : List Nat :=
  (uniqueSorted rows).map (fun r => idxOfRow rows r)

/-- Inverse map (`np.unique(..., return_inverse=True)`): position of each
input row among the distinct rows. -/
def uniqueInverse (rows : List Row) : List Nat :=
  rows.map (fun r => idxOfRow (uniqueSorted rows) r)

/-- Occurrence counts (`np.unique(..., return_counts=True)`). -/
def uniqueCounts (rows : List Row) : List Nat :=
  (uniqueSorted rows).map (fun r => rows.count r)

/-- The values output `unique_stuff[0] = in_arr[unique_stuff[1]]`
(arr.py:89): the unique rows re-read from the original array at the
first-occurrence indices. -/
def uniqueValues (rows : List Row) : List Row :=
  (uniqueIds rows).map (fun i => rows.getD i [])

/-- Embeds `unique_rows` (arr.py:43-94) with its default flags: returns
values, first-occurrence ids, inverse map and counts, in the order the
source returns them. -/
def unique_rows (rows : List Row) :
    List Row × List Nat × List Nat × List Nat :=
  (uniqueValues rows, uniqueIds rows, uniqueInverse rows, uniqueCounts rows)

/-! ## Concrete instances used by the claim theorems -/

/-- Registration state of a holder type with two operations `f` and `g`,
each decorated `depends_on(["x"])`. -/
def regFG : RegState :=
  registerDependency (registerDependency ⟨[], []⟩ "f" ["x"]) "g" ["x"]

/-- The underlying computation wrapped as `f`. -/
def funcF : Holder Int → Option Int := fun _ => some 1

/-- The underlying computation wrapped as `g`. -/
def funcG : Holder Int → Option Int := fun _ => some 2

/-- A holder whose tracked attribute `x` is freshly created (hence
modified) and whose cache is empty. -/
def holder0 : Holder Int := { attrs := [("x", true)], saved := [] }

/-- One call of the wrapped `f` with default flags. -/
def callF (h : Holder Int) : EvalResult Int :=
  compute_or_return_saved regFG "f" funcF false false h

/-- One call of the wrapped `g` with default flags. -/
def callG (h : Holder Int) : EvalResult Int :=
  compute_or_return_saved regFG "g" funcG false false h

/-- Holder state after `f()` then `g()`: both operations cached, `x`
consumed. -/
def holderFG : Holder Int := (callG (callF holder0).holder).holder

/-- Holder state after `f()`, `g()`, then an in-place mutation of `x`. -/
def holderMut : Holder Int := mutateAttr holderFG "x"

/-- A freshly created tracked root buffer. -/
def exampleRoot : TA (List Int) :=
  { data := [1, 2, 3, 4], writeable := true, modified := true }

/-- The root as a tracked array with the `int` source sentinel. -/
def exampleBase : Tracked (List Int) := { arr := exampleRoot, source := none }

/-- A read-only view of the root, as `TrackedArray.view` produces. -/
def exampleView : Tracked (List Int) := exampleBase.view

/-- The root made write-protected through the `mutable` property setter
(`a.mutable = False`): still source-free. -/
def exampleFrozenRoot : Tracked (List Int) := exampleBase.set_mutable false

/-- What every in-place mutation of a container `orig` must leave in its
result: the container's own modified flag set, and, whenever `orig` was
created as a view with source `b`, the source's modified flag set too
(vacuous for source-free roots, which only owe their own flag). -/
def setsModifiedFlags {α : Type} (orig result : Tracked α) : Prop :=
  result.arr.modified = true
  ∧ ∀ b, orig.source = some b → result.source = some { b with modified := true }

/-! ## Helper lemmas on the dict model and the sweep -/

theorem dictGet_dictSet_self {α : Type} (d : List (String × α)) (k : String) (v : α) :
    dictGet (dictSet d k v) k = some v := by
  induction d with
  | nil => simp [dictSet, dictGet]
  | cons p rest ih =>
      obtain ⟨pk, pv⟩ := p
      by_cases h : pk = k
      · simp [dictSet, h, dictGet]
      · simp [dictSet, h, dictGet, ih]

theorem dictGet_dictSet_ne {α : Type} (d : List (String × α)) (k k2 : String) (v : α)
    (h : k2 ≠ k) : dictGet (dictSet d k v) k2 = dictGet d k2 := by
  have h2 : k ≠ k2 := Ne.symm h
  induction d with
  | nil => simp [dictSet, dictGet, h2]
  | cons p rest ih =>
      obtain ⟨pk, pv⟩ := p
      by_cases hk : pk = k
      · subst hk
        simp [dictSet, dictGet, h2]
      · simp [dictSet, hk, dictGet, ih]

theorem mem_dictKeys_of_isSome {α : Type} (d : List (String × α)) (k : String) :
    (dictGet d k).isSome = true → k ∈ dictKeys d := by
  induction d with
  | nil => intro h; simp [dictGet] at h
  | cons p rest ih =>
      intro h
      obtain ⟨pk, pv⟩ := p
      by_cases hk : pk = k
      · subst hk
        simp [dictKeys]
      · simp only [dictGet, if_neg hk] at h
        simp only [dictKeys, List.map_cons]
        exact List.mem_cons_of_mem _ (ih h)

theorem dictGet_foldl_setNone {V : Type} (l : List String)
    (s : List (String × Option V)) (k : String) :
    dictGet (l.foldl (fun s2 i => dictSet s2 i none) s) k
      = if k ∈ l then some none else dictGet s k := by
  induction l generalizing s with
  | nil => simp
  | cons a tl ih =>
      simp only [List.foldl_cons, ih]
      by_cases hk : k ∈ tl
      · simp [hk]
      · by_cases ha : k = a
        · subst ha
          simp [hk, dictGet_dictSet_self]
        · simp [hk, ha, dictGet_dictSet_ne _ _ _ _ ha]

theorem savedGet_sweepOne_none {V : Type} (inv : List (String × List String))
    (h : Holder V) (d k : String) (hk : savedGet h k = none) :
    savedGet (sweepOne inv h d) k = none := by
  unfold sweepOne
  by_cases hm : attrModified h d
  · simp only [hm, if_true, savedGet, dictGet_foldl_setNone]
    by_cases hmem : k ∈ (dictGet inv d).getD []
    · simp [hmem]
    · simpa [hmem] using hk
  · simpa [hm] using hk

theorem savedGet_foldl_sweepOne_none {V : Type} (inv : List (String × List String))
    (l : List String) (h : Holder V) (k : String) (hk : savedGet h k = none) :
    savedGet (l.foldl (sweepOne inv) h) k = none := by
  induction l generalizing h with
  | nil => simpa using hk
  | cons a tl ih => exact ih _ (savedGet_sweepOne_none _ _ _ _ hk)

theorem savedGet_sweepAll_none {V : Type} (reg : RegState) (name : String)
    (h : Holder V) (k : String) (hk : savedGet h k = none) :
    savedGet (sweepAll reg name h) k = none :=
  savedGet_foldl_sweepOne_none _ _ _ _ hk

/-! ## Helper lemmas on rows and `unique_rows` -/

theorem mem_insertRow (r x : Row) (l : List Row) :
    x ∈ insertRow r l ↔ x = r ∨ x ∈ l := by
  induction l with
  | nil => simp [insertRow]
  | cons a tl ih =>
      unfold insertRow
      by_cases h : rowLe r a
      · simp [h]
      · rw [if_neg h, List.mem_cons, ih, List.mem_cons]
        tauto

theorem mem_sortRows (x : Row) (l : List Row) : x ∈ sortRows l ↔ x ∈ l := by
  induction l with
  | nil => simp [sortRows]
  | cons a tl ih =>
      simp only [sortRows, List.foldr_cons] at ih ⊢
      rw [mem_insertRow, ih, List.mem_cons]

theorem mem_uniqueSorted (x : Row) (l : List Row) :
    x ∈ uniqueSorted l ↔ x ∈ l := by
  rw [uniqueSorted, mem_sortRows, List.mem_dedup]

theorem idxOfRow_lt_length (l : List Row) (r : Row) (h : r ∈ l) :
    idxOfRow l r < l.length := by
  induction l with
  | nil => simp at h
  | cons a tl ih =>
      unfold idxOfRow
      by_cases ha : a = r
      · simp [ha]
      · have hr : r ∈ tl := by
          rcases List.mem_cons.1 h with h1 | h1
          · exact absurd h1.symm ha
          · exact h1
        simpa [ha] using ih hr

theorem getD_idxOfRow (l : List Row) (r : Row) (h : r ∈ l) :
    l.getD (idxOfRow l r) [] = r := by
  induction l with
  | nil => simp at h
  | cons a tl ih =>
      unfold idxOfRow
      by_cases ha : a = r
      · simp [ha]
      · have hr : r ∈ tl := by
          rcases List.mem_cons.1 h with h1 | h1
          · exact absurd h1.symm ha
          · exact h1
        simpa [ha] using ih hr

theorem getD_mem_of_lt {α : Type} (l : List α) (i : Nat) (d : α)
    (h : i < l.length) : l.getD i d ∈ l := by
  induction l generalizing i with
  | nil => simp at h
  | cons a tl ih =>
      cases i with
      | zero => simp
      | succ n =>
          simp only [List.getD_cons_succ]
          exact List.mem_cons_of_mem _ (ih n (by simpa using h))

theorem getD_map_lt {α β : Type} (f : α → β) (l : List α) (i : Nat)
    (d : β) (d2 : α) (h : i < l.length) :
    (l.map f).getD i d = f (l.getD i d2) := by
  induction l generalizing i with
  | nil => simp at h
  | cons a tl ih =>
      cases i with
      | zero => simp
      | succ n => simpa using ih n (by simpa using h)

/-! ## Claim theorems -/

/-- C1, counterexample: with operation `f` registered on dependee `x`
and no prior computation cached, a `return_saved=True` call does not
fail with any error — it falls through, invokes the underlying
computation and returns the fresh value. -/
theorem C1_counterexample :
    (compute_or_return_saved regFG "f" funcF false true holder0).invoked = true
    ∧ (compute_or_return_saved regFG "f" funcF false true holder0).result
        = some 1 := by
  exact ⟨rfl, rfl⟩

/-- C1, as amended: for every registered operation and holder, a
`return_saved=True` call returns the cached value immediately — holder
state untouched, computation not invoked — when one is present and
`recompute` is unset; when no prior successful computation is cached the
call does not fail: it proceeds with the normal evaluation protocol and
the underlying computation is invoked. -/
theorem C1_return_saved {V : Type} (reg : RegState) (name : String)
    (func : Holder V → Option V) (self : Holder V) :
    ((savedGet self name).isSome = true →
      compute_or_return_saved reg name func false true self
        = { holder := self, result := savedGet self name, invoked := false })
    ∧ (savedGet self name = none →
      (compute_or_return_saved reg name func false true self).invoked = true) := by
  constructor
  · intro hs
    unfold compute_or_return_saved
    simp [hs]
  · intro hs
    have h1 : savedGet (sweepAll reg name self) name = none :=
      savedGet_sweepAll_none reg name self name hs
    unfold compute_or_return_saved evalBody
    simp [hs, h1]

/-- C1, witness for the amended theorem: a holder with `f` cached is
served the cached value unchanged, and the empty holder triggers the
computation. -/
theorem C1_witness :
    compute_or_return_saved regFG "f" funcF false true
        { attrs := [("x", false)], saved := [("f", some 1)] }
      = { holder := { attrs := [("x", false)], saved := [("f", some 1)] },
          result := some 1, invoked := false }
    ∧ (compute_or_return_saved regFG "f" funcF false true holder0).invoked
        = true := by
  exact ⟨(C1_return_saved regFG "f" funcF _).1 (by decide),
    (C1_return_saved regFG "f" funcF holder0).2 (by decide)⟩

/-- C2: with `f` and `g` both registered on `x` and both cached, an
in-place mutation of `x` followed by `g()` runs `g`'s computation — the
previously cached `g` value having been evicted to the sentinel during
the staleness sweep — and the `f()` that follows with no further
mutation also runs `f`'s computation; the last two conjuncts check the
claim's literal `f()`, mutate, `g()`, `f()` ordering, where both
recompute as well. -/
theorem C2_mutation_recomputes_both :
    dictGet holderFG.saved "g" = some (some 2)
    ∧ dictGet (sweepAll regFG "g" holderMut).saved "g" = some none
    ∧ (callG holderMut).invoked = true
    ∧ (callF (callG holderMut).holder).invoked = true
    ∧ (callG (mutateAttr (callF holder0).holder "x")).invoked = true
    ∧ (callF (callG (mutateAttr (callF holder0).holder "x")).holder).invoked
        = true := by
  decide

/-- C4, counterexample: with `f` and `g` both cached and `x` then
mutated, evaluating `f` clears the shared dependency's single
`_modified` flag outright — `x` is not still flagged modified for `g`
after `f`'s evaluation and before `g` is itself evaluated. -/
theorem C4_counterexample :
    attrModified (callF holderMut).holder "x" = false := by
  decide

/-- C4, as amended: evaluating the first of two co-dependent operations
clears the shared dependency's modified flag globally — the flag is one
bit on the container, not a per-operation view — but the staleness sweep
of that same evaluation already evicted the second operation's cached
entry to the sentinel, so the second operation still recomputes on its
next call even with no new mutation in between. -/
theorem C4_amended :
    attrModified (callF holderMut).holder "x" = false
    ∧ dictGet (callF holderMut).holder.saved "g" = some none
    ∧ (callG (callF holderMut).holder).invoked = true := by
  decide

/-- C3: every in-place mutator — the arithmetic, bitwise and
item/slice-assignment dunders alike, with none omitted — sets the
mutated container's own modified flag, for every container, view or
source-free root alike; and whenever the container was created as a view
with source `b`, the same mutation sets `b`'s modified flag too. -/
theorem C3_inplace_mutators {α : Type} (t : Tracked α) (f : α → α)
    (t2 : Tracked (List Int)) (i lo : Nat) (v : Int) (vs : List Int) :
    setsModifiedFlags t (Tracked.iadd f t).1
    ∧ setsModifiedFlags t (Tracked.isub f t).1
    ∧ setsModifiedFlags t (Tracked.imul f t).1
    ∧ setsModifiedFlags t (Tracked.idiv f t).1
    ∧ setsModifiedFlags t (Tracked.itruediv f t).1
    ∧ setsModifiedFlags t (Tracked.imatmul f t).1
    ∧ setsModifiedFlags t (Tracked.ipow f t).1
    ∧ setsModifiedFlags t (Tracked.imod f t).1
    ∧ setsModifiedFlags t (Tracked.ifloordiv f t).1
    ∧ setsModifiedFlags t (Tracked.ilshift f t).1
    ∧ setsModifiedFlags t (Tracked.irshift f t).1
    ∧ setsModifiedFlags t (Tracked.iand f t).1
    ∧ setsModifiedFlags t (Tracked.ixor f t).1
    ∧ setsModifiedFlags t (Tracked.ior f t).1
    ∧ setsModifiedFlags t2 (t2.setitem i v).1
    ∧ setsModifiedFlags t2 (t2.setslice lo vs).1 := by
  have key : ∀ {β : Type} (u : Tracked β) (g : β → β),
      setsModifiedFlags u (u.set_modified.inplaceSuper g).1 := by
    intro β u g
    constructor
    · unfold Tracked.inplaceSuper Tracked.set_modified
      by_cases hw : u.arr.writeable <;> simp [hw]
    · intro c hc
      unfold Tracked.inplaceSuper Tracked.set_modified
      by_cases hw : u.arr.writeable <;> simp [hw, hc]
  exact ⟨key t f, key t f, key t f, key t f, key t f, key t f, key t f,
    key t f, key t f, key t f, key t f, key t f, key t f, key t f,
    key t2 _, key t2 _⟩

/-- C3, witness: the theorem applied to a concrete source-free root —
whose own flag is set with the source clause vacuous — and to a concrete
read-only view of that root, where the source's flag is set as well,
shown for the in-place add and for item assignment. -/
theorem C3_witness :
    (Tracked.iadd id exampleBase).1.arr.modified = true
    ∧ exampleView.source = some exampleRoot
    ∧ (Tracked.iadd id exampleView).1.arr.modified = true
    ∧ (Tracked.iadd id exampleView).1.source
        = some { exampleRoot with modified := true }
    ∧ (exampleView.setitem 0 9).1.source
        = some { exampleRoot with modified := true } := by
  refine ⟨?_, by decide, ?_, ?_, ?_⟩
  · exact (C3_inplace_mutators exampleBase id exampleBase 0 0 9 []).1.1
  · exact (C3_inplace_mutators exampleView id exampleView 0 0 9 []).1.1
  · exact (C3_inplace_mutators exampleView id exampleView 0 0 9 []).1.2
      exampleRoot (by decide)
  · exact (C3_inplace_mutators exampleView id exampleView 0 0 9
      []).2.2.2.2.2.2.2.2.2.2.2.2.2.2.1.2 exampleRoot (by decide)

/-- C5: what slicing actually returns at runtime.  Under Python 3 a read
slice of a writable tracked array dispatches to `ndarray.__getitem__`
(the overridden `__getslice__` is a Python-2-only hook that is never
invoked), so the slice is a writable aliasing view — element assignment
through it succeeds instead of failing with the write-protection error —
although it does carry the source back-reference; the dead
`__getslice__`, had it been callable, would have returned a read-only
slice. -/
theorem C5_slice_not_write_protected :
    (exampleBase.getitem_slice 0 2).arr.writeable = true
    ∧ ((exampleBase.getitem_slice 0 2).setitem 0 9).2 = .ok ()
    ∧ (exampleBase.getitem_slice 0 2).source = some exampleRoot
    ∧ (exampleBase.getslice 0 2).2.arr.writeable = false := by
  exact ⟨rfl, rfl, rfl, rfl⟩

/-- C6: `make_tracked_array` with `copy=False` returns a plain untracked
contiguous array — the `TrackedArray` view happens only inside the
`if copy:` branch — while `copy=True` yields a tracked container with
`modified = True`; `None` input yields the empty container and ragged
input fails with the shape error. -/
theorem C6_copy_false_untracked :
    make_tracked_array (some [[1, 2]]) false = .ok (.plain [[1, 2]])
    ∧ make_tracked_array none true
        = .ok (.trackedArr
            { arr := { data := [], writeable := true, modified := true },
              source := none })
    ∧ make_tracked_array (some [[1], [2, 3]]) true = .error .ShapeError := by
  exact ⟨rfl, rfl, rfl⟩

/-- C7: direct item assignment on a key-value holder is rejected for
every holder state, key and value, and direct indexing fails with the
key-not-found error whenever the key is absent from the store. -/
theorem C7_direct_access {α : Type} (saved : List (String × α))
    (key : String) (value : α) :
    DataHolder.setitem saved key value = .error .DirectWriteRejected
    ∧ (dictGet saved key = none →
        DataHolder.getitem saved key = .error .KeyNotFoundError) := by
  refine ⟨rfl, fun h => ?_⟩
  unfold DataHolder.getitem
  rw [h]

/-- C7, witness: the theorem at a concrete cache-like store and absent
key. -/
theorem C7_witness :
    DataHolder.setitem [("a", some (1 : Int))] "b" (some 2)
        = .error .DirectWriteRejected
    ∧ dictGet [("a", some (1 : Int))] "b" = none
    ∧ DataHolder.getitem [("a", some (1 : Int))] "b"
        = .error .KeyNotFoundError := by
  exact ⟨(C7_direct_access [("a", some (1 : Int))] "b" (some 2)).1, by decide,
    (C7_direct_access [("a", some (1 : Int))] "b" (some 2)).2 (by decide)⟩

/-- C9: an element assignment on any write-protected tracked container —
source-free root and view alike — fails with the write-protection error,
yet the container's own modified flag is set before the write is
attempted and is not rolled back when the write is rejected; and
whenever the container has a source `b`, `b`'s modified flag is likewise
set and kept. -/
theorem C9_setitem_flags_before_failure (t : Tracked (List Int))
    (i : Nat) (v : Int) (hw : t.arr.writeable = false) :
    (t.setitem i v).2 = .error .WriteProtectionError
    ∧ (t.setitem i v).1.arr.modified = true
    ∧ ∀ b, t.source = some b →
        (t.setitem i v).1.source = some { b with modified := true } := by
  refine ⟨?_, ?_, ?_⟩
  · unfold Tracked.setitem Tracked.inplaceSuper Tracked.set_modified
    simp [hw]
  · unfold Tracked.setitem Tracked.inplaceSuper Tracked.set_modified
    simp [hw]
  · intro b hb
    unfold Tracked.setitem Tracked.inplaceSuper Tracked.set_modified
    simp [hw, hb]

/-- C9, witness: the theorem at a concrete source-free root made
write-protected through the `mutable` setter, and at a concrete
read-only view of a root. -/
theorem C9_witness :
    exampleFrozenRoot.arr.writeable = false
    ∧ (exampleFrozenRoot.setitem 1 7).2 = .error .WriteProtectionError
    ∧ (exampleFrozenRoot.setitem 1 7).1.arr.modified = true
    ∧ exampleView.arr.writeable = false
    ∧ (exampleView.setitem 1 7).1.source
        = some { exampleRoot with modified := true } := by
  refine ⟨by decide, ?_, ?_, by decide, ?_⟩
  · exact (C9_setitem_flags_before_failure exampleFrozenRoot 1 7 (by decide)).1
  · exact (C9_setitem_flags_before_failure exampleFrozenRoot 1 7 (by decide)).2.1
  · exact (C9_setitem_flags_before_failure exampleView 1 7 (by decide)).2.2
      exampleRoot (by decide)

/-- C10: the invalidation sweep stores the sentinel `None` under the
evicted operation's key rather than deleting the key — afterwards the
key still appears in `keys()` and direct indexing returns `None` without
raising — and consequently an operation whose underlying computation
returns `None` is invoked again on every call, its stored result staying
the sentinel, never served from the cache. -/
theorem C10_none_sentinel {V : Type} (reg : RegState) (name dep : String)
    (self : Holder V) (func : Holder V → Option V) (rc rs : Bool)
    (hmod : attrModified self dep = true)
    (hinv : name ∈ (dictGet reg.invDepends dep).getD [])
    (hfunc : ∀ h, func h = none) :
    (dictGet (sweepOne reg.invDepends self dep).saved name = some none
      ∧ name ∈ dictKeys (sweepOne reg.invDepends self dep).saved
      ∧ DataHolder.getitem (sweepOne reg.invDepends self dep).saved name
          = .ok none)
    ∧ (savedGet self name = none →
        (compute_or_return_saved reg name func rc rs self).invoked = true
        ∧ dictGet (compute_or_return_saved reg name func rc rs
            self).holder.saved name = some none) := by
  constructor
  · have hget : dictGet (sweepOne reg.invDepends self dep).saved name
        = some none := by
      unfold sweepOne
      rw [if_pos hmod, dictGet_foldl_setNone, if_pos hinv]
    refine ⟨hget, mem_dictKeys_of_isSome _ _ (by rw [hget]; rfl), ?_⟩
    unfold DataHolder.getitem
    rw [hget]
  · intro hs
    have h1 : savedGet (sweepAll reg name self) name = none :=
      savedGet_sweepAll_none reg name self name hs
    unfold compute_or_return_saved evalBody
    simp only [hs, Option.isSome_none, Bool.and_false, Bool.false_and,
      Bool.and_self, Bool.false_eq_true, if_false, h1, clearDependeeFlags]
    rw [hfunc]
    simp [dictGet_dictSet_self]

/-- C10, witness: the theorem at the two-operation registration, for
operation `g` with a computation returning `None` on the fresh holder. -/
theorem C10_witness :
    attrModified holder0 "x" = true
    ∧ "g" ∈ (dictGet regFG.invDepends "x").getD []
    ∧ dictGet (sweepOne regFG.invDepends holder0 "x").saved "g" = some none
    ∧ (compute_or_return_saved regFG "g" (fun _ => (none : Option Int))
        false false holder0).invoked = true := by
  refine ⟨by decide, by decide, ?_, ?_⟩
  · exact (C10_none_sentinel regFG "g" "x" holder0 (fun _ => none) false false
      (by decide) (by decide) (fun _ => rfl)).1.1
  · exact ((C10_none_sentinel regFG "g" "x" holder0 (fun _ => none) false false
      (by decide) (by decide) (fun _ => rfl)).2 (by decide)).1

/-- C8: `unique_rows` on `[[1,2],[1,2],[3,4]]` returns unique values
`[[1,2],[3,4]]`, inverse `[0,0,1]` and counts `[2,1]`; and for every 2D
integer input, indexing the returned values with the returned inverse
reconstructs the original array row for row. -/
theorem C8_unique_rows :
    unique_rows [[1, 2], [1, 2], [3, 4]]
      = ([[1, 2], [3, 4]], [0, 2], [0, 0, 1], [2, 1])
    ∧ ∀ (rows : List Row) (i : Nat), i < rows.length →
        (uniqueValues rows).getD ((uniqueInverse rows).getD i 0) []
          = rows.getD i [] := by
  constructor
  · decide
  · intro rows i hi
    have hmem : rows.getD i [] ∈ rows := getD_mem_of_lt rows i [] hi
    have hmemU : rows.getD i [] ∈ uniqueSorted rows :=
      (mem_uniqueSorted _ _).2 hmem
    have hjlt : idxOfRow (uniqueSorted rows) (rows.getD i [])
        < (uniqueSorted rows).length := idxOfRow_lt_length _ _ hmemU
    have hinv : (uniqueInverse rows).getD i 0
        = idxOfRow (uniqueSorted rows) (rows.getD i []) := by
      unfold uniqueInverse
      exact getD_map_lt _ rows i 0 [] hi
    have hvals : (uniqueValues rows).getD
        (idxOfRow (uniqueSorted rows) (rows.getD i [])) [] = rows.getD i [] := by
      unfold uniqueValues uniqueIds
      rw [List.map_map, getD_map_lt _ _ _ _ [] hjlt]
      simp only [Function.comp_apply]
      rw [getD_idxOfRow _ _ hmemU, getD_idxOfRow _ _ hmem]
    rw [hinv, hvals]

/-- C8, witness: the round-trip conjunct applied at a concrete array and
row index. -/
theorem C8_witness :
    1 < ([[5], [5]] : List Row).length
    ∧ (uniqueValues [[5], [5]]).getD ((uniqueInverse [[5], [5]]).getD 1 0) []
        = ([[5], [5]] : List Row).getD 1 [] := by
  exact ⟨by decide, C8_unique_rows.2 [[5], [5]] 1 (by decide)⟩

end Gustaf
